import Mathlib

/-!
Verification of the mgrf tree-training and prediction core against its
natural-language specification.  The C++ sources are shallowly embedded:
doubles become rationals (with an explicit NaN constructor where IEEE NaN
is observable), Eigen matrices become dimension-tagged lists of rows, and
Eigen's runtime dimension assertions become `Option`/`Except` failures.
-/

namespace Mgrf

/-- A double value: either NaN or a rational.  Rounding is not modelled;
every concrete computation the claims exercise is exact in binary64. -/
inductive F where
  | nan : F
  | val : ℚ → F
deriving DecidableEq, Repr

/-- IEEE comparison with NaN: any comparison involving NaN is false. -/
def F.le : F → F → Bool
  | F.val a, F.val b => decide (a ≤ b)
  | _, _ => false

/-- IEEE strict comparison: any comparison involving NaN is false. -/
def F.lt : F → F → Bool
  | F.val a, F.val b => decide (a < b)
  | _, _ => false

/-- IEEE equality: NaN compares unequal to everything, itself included. -/
def F.beq : F → F → Bool
  | F.val a, F.val b => decide (a = b)
  | _, _ => false

/-- NaN-propagating addition. -/
def F.add : F → F → F
  | F.val a, F.val b => F.val (a + b)
  | _, _ => F.nan

/-- NaN-propagating subtraction. -/
def F.sub : F → F → F
  | F.val a, F.val b => F.val (a - b)
  | _, _ => F.nan

/-- NaN-propagating multiplication. -/
def F.mul : F → F → F
  | F.val a, F.val b => F.val (a * b)
  | _, _ => F.nan

/-- NaN-propagating division; division by zero is collapsed to NaN
(no claim exercises a zero denominator). -/
def F.div : F → F → F
  | F.val a, F.val b => if b = 0 then F.nan else F.val (a / b)
  | _, _ => F.nan

/-- An Eigen::MatrixXd: a rows-by-cols matrix stored as a list of rows. -/
structure Mat where
  rows : Nat
  cols : Nat
  entries : List (List F)
deriving DecidableEq, Repr

/-- Coefficient access `m(r, c)`. -/
def Mat.entry (m : Mat) (r c : Nat) : F :=
  (m.entries.getD r []).getD c F.nan

/-- Eigen::MatrixXd::Zero(r, c). -/
def Mat.zero (r c : Nat) : Mat :=
  ⟨r, c, List.replicate r (List.replicate c (F.val 0))⟩

/-- Eigen::MatrixXd::Constant(r, c, x). -/
def Mat.const (r c : Nat) (x : F) : Mat :=
  ⟨r, c, List.replicate r (List.replicate c x)⟩

/-- Matrix addition.  Eigen asserts that the two operand shapes agree;
a shape mismatch aborts the program, modelled as `none`. -/
def Mat.add (a b : Mat) : Option Mat :=
  if a.rows = b.rows ∧ a.cols = b.cols then
    some ⟨a.rows, a.cols,
      (a.entries.zip b.entries).map (fun rc => (rc.1.zip rc.2).map (fun p => F.add p.1 p.2))⟩
  else
    none

/-- Division of every coefficient by a positive count (`m / n`). -/
def Mat.divNat (m : Mat) (n : Nat) : Mat :=
  ⟨m.rows, m.cols, m.entries.map (fun row => row.map (fun x => F.div x (F.val (n : ℚ))))⟩

/-- The read-only table of outcome-role matrices (Observations.cpp):
`observations_by_type[role]` is a num_samples-by-d matrix. -/
structure Observations where
  by_type : List Mat
deriving DecidableEq, Repr

/-- Observations::OUTCOME. -/
def Observations.OUTCOME : Nat := 0

/-- Observations::get(type, sample): the row of the role matrix, returned
as an Eigen column vector (a d-by-1 Mat, d the role matrix's column count). -/
def Observations.get (obs : Observations) (type sample : Nat) : Mat :=
  let m := obs.by_type.getD type ⟨0, 0, []⟩
  let row := m.entries.getD sample []
  ⟨m.cols, 1, row.map (fun x => [x])⟩

/-- PredictionValues: per-node tuples of summary matrices
(`values[node]` empty means no summary), with node and type counts. -/
structure PredictionValues where
  values : List (List Mat)
  num_nodes : Nat
  num_types : Nat
deriving DecidableEq, Repr

/-- PredictionValues::empty(node): true iff the node's tuple has length 0. -/
def PredictionValues.empty (pv : PredictionValues) (node : Nat) : Bool :=
  (pv.values.getD node []).isEmpty

/-- PredictionValues::get(node, type). -/
def PredictionValues.get (pv : PredictionValues) (node type : Nat) : Mat :=
  (pv.values.getD node []).getD type (Mat.zero 0 0)

/-- PredictionValues::get_values(node). -/
def PredictionValues.get_values (pv : PredictionValues) (node : Nat) : List Mat :=
  pv.values.getD node []

/-- RegressionPredictionStrategy::OUTCOME. -/
def RegressionOUTCOME : Nat := 0

/-- RegressionPredictionStrategy::prediction_length(): the source returns 4. -/
def regression_prediction_length : Nat := 4

/-- RegressionPredictionStrategy::prediction_value_length(): the source returns 4. -/
def regression_prediction_value_length : Nat := 4

/-- The intermediate quantities of RegressionPredictionStrategy::compute_variance,
in source order: (num_good_groups, psi_squared, psi_grouped_squared,
var_between, var_total, group_noise).  The loops mirror the source exactly:
a group is good when none of its `ci_group_size` leaf slots is empty; for each
slot, psi_1 = leaf(0,0) - average_outcome accumulates squared into psi_squared
and linearly into group_psi, which is then divided by ci_group_size and its
square accumulated into psi_grouped_squared. -/
def variance_moments (average : List Mat) (leaf_values : PredictionValues)
    (ci_group_size : Nat) : F × F × F × F × F × F :=
  let average_outcome := (average.getD RegressionOUTCOME (Mat.zero 0 0)).entry 0 0
  let step := fun (acc : F × F × F) (group : Nat) =>
    let good := (List.range ci_group_size).all
      (fun j => !(leaf_values.empty (group * ci_group_size + j)))
    if good then
      let inner := (List.range ci_group_size).foldl
        (fun (pq : F × F) j =>
          let i := group * ci_group_size + j
          let psi1 := F.sub ((leaf_values.get i RegressionOUTCOME).entry 0 0) average_outcome
          (F.add pq.1 (F.mul psi1 psi1), F.add pq.2 psi1))
        (acc.2.1, F.val 0)
      let group_psi := F.div inner.2 (F.val (ci_group_size : ℚ))
      (F.add acc.1 (F.val 1), inner.1, F.add acc.2.2 (F.mul group_psi group_psi))
    else
      acc
  let folded := (List.range (leaf_values.num_nodes / ci_group_size)).foldl step
    (F.val 0, F.val 0, F.val 0)
  let num_good_groups := folded.1
  let psi_squared := folded.2.1
  let psi_grouped_squared := folded.2.2
  let var_between := F.div psi_grouped_squared num_good_groups
  let var_total := F.div psi_squared (F.mul num_good_groups (F.val (ci_group_size : ℚ)))
  let group_noise := F.div (F.sub var_total var_between) (F.val ((ci_group_size - 1 : Nat) : ℚ))
  (num_good_groups, psi_squared, psi_grouped_squared, var_between, var_total, group_noise)

/-- RegressionPredictionStrategy::compute_variance.  The final call
`bayes_debiaser.debias(var_between, group_noise, num_good_groups)` is to a
class not under src; per the spec it is a black-box closed form, so it is
passed in as `debias`.  The source returns
`Eigen::VectorXd::Constant(1, var_debiased)`: a vector of length one. -/
def regression_compute_variance (debias : F → F → F → F) (average : List Mat)
    (leaf_values : PredictionValues) (ci_group_size : Nat) : List F :=
  let m := variance_moments average leaf_values ci_group_size
  [debias m.2.2.2.1 m.2.2.2.2.2 m.1]

/-- The Eigen comma-initializer `mat << src` for a freshly constructed
rows-by-cols matrix: Eigen asserts that the source supplies exactly
rows*cols coefficients, else the program aborts (`none`). -/
def commaInit (rows cols : Nat) (src : Mat) : Option Mat :=
  if src.rows * src.cols = rows * cols then
    some ⟨rows, cols, src.entries⟩
  else
    none

/-- RegressionPredictionStrategy::precompute_prediction_values.  For each
non-empty leaf the source accumulates `average += observations.get(OUTCOME, s)`
into `Eigen::MatrixXd::Zero(1, 4)` and stores `mat << average / n` into a
fresh 1-by-4 matrix.  The Eigen shape assertions are threaded through
`Option`; `none` models an aborted program. -/
def regression_precompute_prediction_values (leaf_samples : List (List Nat))
    (obs : Observations) : Option PredictionValues :=
  let num_leaves := leaf_samples.length
  (leaf_samples.mapM (fun (leaf : List Nat) =>
    if leaf.isEmpty then
      some []
    else
      (leaf.foldlM (fun acc s => Mat.add acc (obs.get Observations.OUTCOME s)) (Mat.zero 1 4)).bind
        (fun average =>
          (commaInit 1 4 (average.divNat leaf.length)).map (fun mat => [mat])))).map
    (fun values => PredictionValues.mk values num_leaves 1)

/-- A Prediction: a point vector plus an optional variance vector
(the single-argument constructor used on the empty branch leaves the
variance absent). -/
structure Prediction where
  point : List F
  variance : Option (List F)
deriving DecidableEq, Repr

/-- The OptimizedPredictionStrategy interface, as consumed by the collector. -/
structure Strategy where
  prediction_length : Nat
  prediction_value_length : Nat
  predict : List Mat → List F
  compute_variance : List Mat → PredictionValues → Nat → List F

/-- Fatal conditions inside the collector: an Eigen shape assertion, or the
programmer error thrown by validate_prediction for the given sample. -/
inductive CollectError where
  | eigenAssert : CollectError
  | badLength : Nat → CollectError
deriving DecidableEq, Repr

/-- OptimizedPredictionCollector::add_prediction_values: lazily allocate the
combined average (zero matrices shaped like the node's summaries) on the
first contributing leaf, then element-wise add the node's summary of each
type.  Eigen's shape assertion on `+=` is the `Option`. -/
def add_prediction_values (node : Nat) (pv : PredictionValues)
    (combined : List Mat) : Option (List Mat) :=
  let base := if combined.isEmpty then
      (List.range pv.num_types).map (fun type =>
        let prototype := pv.get node type
        Mat.zero prototype.rows prototype.cols)
    else combined
  if pv.num_types ≤ base.length then
    (List.range pv.num_types).foldlM
      (fun (acc : List Mat) type =>
        (Mat.add (acc.getD type (Mat.zero 0 0)) (pv.get node type)).map
          (fun m => acc.set type m))
      base
  else
    none

/-- OptimizedPredictionCollector::normalize_prediction_values. -/
def normalize_prediction_values (num_leaves : Nat) (combined : List Mat) : List Mat :=
  combined.map (fun m => m.divNat num_leaves)

/-- OptimizedPredictionCollector::validate_prediction: throw iff the point
vector's length differs from the strategy's prediction_length. -/
def validate_prediction (strategy : Strategy) (sample : Nat)
    (p : Prediction) : Except CollectError Unit :=
  if p.point.length ≠ strategy.prediction_length then
    Except.error (CollectError.badLength sample)
  else
    Except.ok ()

/-- The per-tree body of the collector's inner loop, threading
(num_leaves, combined_average, leaf_values).  A tree is skipped when the
inclusion mask is present and excludes it for this sample, or when its leaf
for this sample carries no summary. -/
def collect_tree_step (pvs_by_tree : List PredictionValues)
    (leaf_nodes_by_tree : List (List Nat)) (trees_by_sample : List (List Bool))
    (ci_group_size : Nat) (sample : Nat)
    (acc : Nat × List Mat × List (List Mat)) (tree_index : Nat) :
    Option (Nat × List Mat × List (List Mat)) :=
  if !trees_by_sample.isEmpty && !((trees_by_sample.getD sample []).getD tree_index false) then
    some acc
  else
    let node := (leaf_nodes_by_tree.getD tree_index []).getD sample 0
    let pv := pvs_by_tree.getD tree_index ⟨[], 0, 0⟩
    if pv.empty node then
      some acc
    else
      (add_prediction_values node pv acc.2.1).map (fun combined =>
        (acc.1 + 1, combined,
          if 1 < ci_group_size then acc.2.2.set tree_index (pv.get_values node)
          else acc.2.2))

/-- The body of OptimizedPredictionCollector::collect_predictions for one
query row: loop over all trees, then either emit the NaN placeholder (zero
contributing leaves), or normalize, predict, optionally compute the
variance, and validate. -/
def collect_prediction_for_sample (strategy : Strategy)
    (pvs_by_tree : List PredictionValues) (leaf_nodes_by_tree : List (List Nat))
    (trees_by_sample : List (List Bool)) (ci_group_size : Nat) (sample : Nat) :
    Except CollectError Prediction :=
  let num_trees := pvs_by_tree.length
  let initial : Nat × List Mat × List (List Mat) :=
    (0, [], if 1 < ci_group_size then List.replicate num_trees [] else [])
  match (List.range num_trees).foldlM
      (collect_tree_step pvs_by_tree leaf_nodes_by_tree trees_by_sample ci_group_size sample)
      initial with
  | none => Except.error CollectError.eigenAssert
  | some acc =>
    if acc.1 = 0 then
      Except.ok ⟨List.replicate strategy.prediction_length F.nan, none⟩
    else
      let average := normalize_prediction_values acc.1 acc.2.1
      let point := strategy.predict average
      let variance := if 1 < ci_group_size then
          some (strategy.compute_variance average
            ⟨acc.2.2, num_trees, strategy.prediction_value_length⟩ ci_group_size)
        else
          none
      let p : Prediction := ⟨point, variance⟩
      match validate_prediction strategy sample p with
      | Except.error e => Except.error e
      | Except.ok _ => Except.ok p

/-- Sequential collection with early abort: the source's loop pushing one
result per query row, where a thrown error aborts the whole call. -/
def mapExcept {α β : Type} (f : α → Except CollectError β) :
    List α → Except CollectError (List β)
  | [] => Except.ok []
  | a :: t =>
    match f a with
    | Except.error e => Except.error e
    | Except.ok b =>
      match mapExcept f t with
      | Except.error e => Except.error e
      | Except.ok bs => Except.ok (b :: bs)

/-- OptimizedPredictionCollector::collect_predictions over all query rows.
The forest is represented by the per-tree PredictionValues (the only part
of the trees the loop reads besides the routed leaf ids). -/
def collect_predictions (strategy : Strategy) (pvs_by_tree : List PredictionValues)
    (num_samples : Nat) (leaf_nodes_by_tree : List (List Nat))
    (trees_by_sample : List (List Bool)) (ci_group_size : Nat) :
    Except CollectError (List Prediction) :=
  mapExcept
    (collect_prediction_for_sample strategy pvs_by_tree leaf_nodes_by_tree
      trees_by_sample ci_group_size)
    (List.range num_samples)

/-- The feature matrix: (sample, variable) to f64 value, NaN included (a
NaN cell fails the <= comparison and is therefore routed to the right
child, as the spec's NaN-routing note records). -/
abbrev DataM := Nat → Nat → F

/-- The parallel node arrays built by TreeTrainer::train:
child_nodes[0], child_nodes[1], nodes (sample lists), split_vars, split_values. -/
structure BuildTree where
  childLeft : List Nat
  childRight : List Nat
  nodes : List (List Nat)
  split_vars : List Nat
  split_values : List ℚ
deriving DecidableEq, Repr

/-- TreeTrainer::create_empty_node: push a 0 child pair, an empty sample
list, split_var 0 and split_value 0. -/
def create_empty_node (st : BuildTree) : BuildTree :=
  ⟨st.childLeft ++ [0], st.childRight ++ [0], st.nodes ++ [[]],
    st.split_vars ++ [0], st.split_values ++ [0]⟩

/-- The partition loop at the end of TreeTrainer::split_node: each sample
whose data value at the split variable is less-or-equal the threshold under
the IEEE comparison is pushed to the left list, every other sample (NaN
cells included) to the right list. -/
def partition_samples (data : DataM) (split_var : Nat) (split_value : ℚ)
    (samps : List Nat) : List Nat × List Nat :=
  samps.foldl (fun acc s =>
    if F.le (data s split_var) (F.val split_value) then (acc.1 ++ [s], acc.2)
    else (acc.1, acc.2 ++ [s])) ([], [])

/-- The combined step `create_split_variable_subset` + `split_node_internal`
performed by TreeTrainer::split_node before partitioning, abstracted as an
oracle: given (node, samples, split_vars, split_values) it returns the stop
flag and the updated split_vars / split_values arrays. -/
abbrev SplitOracle := Nat → List (List Nat) → List Nat → List ℚ → Bool × List Nat × List ℚ

/-- TreeTrainer::split_node: consult the split decision; on stop the node is
terminal.  Otherwise allocate the two children (left id first, both fresh,
recorded in the child arrays), then partition the node's samples by
`data(sample, split_var) <= split_value`. -/
def split_node (data : DataM) (internal : SplitOracle) (node : Nat)
    (st : BuildTree) : Bool × BuildTree :=
  let r := internal node st.nodes st.split_vars st.split_values
  if r.1 then
    (true, { st with split_vars := r.2.1, split_values := r.2.2 })
  else
    let split_var := r.2.1.getD node 0
    let split_value := r.2.2.getD node 0
    let st1 : BuildTree := { st with split_vars := r.2.1, split_values := r.2.2 }
    let left_child := st1.nodes.length
    let st2 := create_empty_node { st1 with childLeft := st1.childLeft.set node left_child }
    let right_child := st2.nodes.length
    let st3 := create_empty_node { st2 with childRight := st2.childRight.set node right_child }
    let parts := partition_samples data split_var split_value (st3.nodes.getD node [])
    (false, { st3 with nodes := (st3.nodes.set left_child parts.1).set right_child parts.2 })

/-- RelabelingStrategy::relabel, abstract: samples and observations to a
map from sample id to response vector (empty means "do not split"). -/
abbrev RelabelOracle := List Nat → Observations → List (Nat × List F)

/-- SplittingRule::find_best_split, abstract: (node, possible split
variables, responses, samples, split_vars, split_values) to the stop flag
and the updated arrays. -/
abbrev FindBestSplitOracle :=
  Nat → List Nat → List (Nat × List F) → List (List Nat) → List Nat → List ℚ → Bool × List Nat × List ℚ

/-- The outcome scalar `observations.get(OUTCOME, sample)[0]` read by the
pure-node test. -/
def outcome0 (obs : Observations) (s : Nat) : F :=
  (obs.get Observations.OUTCOME s).entry 0 0

/-- The pure-node loop of TreeTrainer::split_node_internal: scan the
outcome scalars and report impure at the first value differing (IEEE `!=`)
from its predecessor. -/
def consecutive_equal : List F → Bool
  | [] => true
  | [_] => true
  | a :: b :: t => F.beq b a && consecutive_equal (b :: t)

/-- TreeTrainer::split_node_internal: (1) terminal when the node holds at
most min_node_size samples; (2) terminal when the node is pure; (3) ask the
relabeling strategy, terminal on an empty response map; (4) ask the
splitting rule, terminal when it reports no improving split.  Every
terminal exit writes split_values[node] = -1. -/
def split_node_internal (min_node_size : Nat) (relabel : RelabelOracle)
    (find_best_split : FindBestSplitOracle) (obs : Observations) (node : Nat)
    (possible_split_vars : List Nat) (samples : List (List Nat))
    (split_vars : List Nat) (split_values : List ℚ) : Bool × List Nat × List ℚ :=
  let node_samples := samples.getD node []
  if node_samples.length ≤ min_node_size then
    (true, split_vars, split_values.set node (-1))
  else if consecutive_equal (node_samples.map (outcome0 obs)) then
    (true, split_vars, split_values.set node (-1))
  else
    let responses_by_sample := relabel node_samples obs
    if responses_by_sample.isEmpty then
      (true, split_vars, split_values.set node (-1))
    else
      let r := find_best_split node possible_split_vars responses_by_sample
        samples split_vars split_values
      if r.1 then (true, r.2.1, r.2.2.set node (-1))
      else (false, r.2.1, r.2.2)

/-- TreeTrainer::create_split_variable_subset.  Modelled from the spec:
RandomSampler is not under src, so the Poisson draw is the parameter
`mtry_sample` (the Poisson distribution is supported on every natural, so
universal quantification over `mtry_sample` covers every draw), and
draw_without_replacement_skip / draw_without_replacement_weighted are
oracle parameters.  The clamp `max(min(mtry_sample, num_independent), 1)`
and the branch structure are from the source. -/
def create_split_variable_subset (deterministic_vars no_split_vars : List Nat)
    (num_cols : Nat) (split_select_weights : List ℚ) (split_select_vars : List Nat)
    (mtry_sample : Nat) (draw_skip : Nat → List Nat → Nat → List Nat)
    (draw_weighted : List Nat → Nat → List ℚ → List Nat) : List Nat :=
  let result := deterministic_vars
  let num_independent_variables := num_cols - no_split_vars.length
  let split_mtry := max (min mtry_sample num_independent_variables) 1
  if split_select_weights.isEmpty then
    result ++ draw_skip num_cols no_split_vars split_mtry
  else if result.length < split_mtry then
    result ++ draw_weighted split_select_vars (split_mtry - result.length) split_select_weights
  else
    result

/-- The worklist loop of TreeTrainer::train: process node ids in order
while open nodes remain; a leaf closes one node, a split clears the parent
sample list and opens one net node.  The loop is fuel-bounded (an oracle
that always splits would not terminate). -/
def train_loop (data : DataM) (internal : SplitOracle) :
    Nat → Nat → Nat → BuildTree → BuildTree
  | 0, _, _, st => st
  | fuel + 1, i, num_open_nodes, st =>
    if num_open_nodes = 0 then st
    else
      let r := split_node data internal i st
      if r.1 then
        train_loop data internal fuel (i + 1) (num_open_nodes - 1) r.2
      else
        train_loop data internal fuel (i + 1) (num_open_nodes + 1)
          { r.2 with nodes := r.2.nodes.set i [] }

/-- A trained Tree: the node arrays plus per-leaf samples, OOB samples and
attached PredictionValues. -/
structure Tree where
  childLeft : List Nat
  childRight : List Nat
  leaf_samples : List (List Nat)
  split_vars : List Nat
  split_values : List ℚ
  oob_samples : List Nat
  prediction_values : PredictionValues

/-- Modelled from the spec: Tree::find_leaf_nodes is not under src.  Per
section 4.5, start at node 0 and while split_value[node] is non-negative
branch left on `data[sample, split_var] <= split_value`, else right.  Fuel
bounds the walk (the trainer's trees are id-monotone, so the node count
suffices). -/
def routeAux (t : Tree) (data : DataM) (sample : Nat) : Nat → Nat → Nat
  | 0, node => node
  | fuel + 1, node =>
    if 0 ≤ t.split_values.getD node (-1) then
      let next := if F.le (data sample (t.split_vars.getD node 0))
          (F.val (t.split_values.getD node 0))
        then t.childLeft.getD node 0
        else t.childRight.getD node 0
      routeAux t data sample fuel next
    else
      node

/-- Modelled from the spec: the leaf id Tree::find_leaf_nodes reports for a
sample (the source returns a vector indexed by sample id; modelled as a
function of the sample id). -/
def find_leaf_node (t : Tree) (data : DataM) (sample : Nat) : Nat :=
  routeAux t data sample t.split_values.length 0

/-- Modelled from the spec: Tree::prune_empty_leaves is not under src.
Section 4.1.2 allows keeping empty-leaf node ids and letting the collector
skip them via empty PredictionValues, under which the sample lists are
unchanged. -/
def prune_empty_leaves (t : Tree) : Tree := t

/-- TreeTrainer::repopulate_leaf_nodes: route every held-out sample to its
leaf, rebuild the leaf sample lists from scratch, and prune empty leaves. -/
def repopulate_leaf_nodes (data : DataM) (t : Tree) (leaf_samples : List Nat) : Tree :=
  let num_nodes := t.leaf_samples.length
  let new_leaf_nodes := leaf_samples.foldl
    (fun (acc : List (List Nat)) s =>
      let leaf_node := find_leaf_node t data s
      acc.set leaf_node ((acc.getD leaf_node []) ++ [s]))
    (List.replicate num_nodes [])
  prune_empty_leaves { t with leaf_samples := new_leaf_nodes }

/-- The node arrays produced by TreeTrainer::train before any honest
repopulation: a single empty root seeded with the split-selection samples
(the honesty subsample's first half when honesty is on, otherwise all
samples), then the worklist loop.  Modelled from the spec:
RandomSampler::subsample is not under src, so the random halving at
honesty fraction 0.5 is the oracle `subsample`. -/
def train_core (data : DataM) (internal : SplitOracle) (honesty : Bool)
    (subsample : List Nat → List Nat × List Nat) (samples : List Nat)
    (fuel : Nat) : BuildTree :=
  let st0 := create_empty_node ⟨[], [], [], [], []⟩
  let root_samples := if honesty then (subsample samples).1 else samples
  train_loop data internal fuel 0 1 { st0 with nodes := st0.nodes.set 0 root_samples }

/-- The Tree assembled from the worklist loop's arrays (empty OOB list and
default PredictionValues, as in the source constructor call). -/
def built_tree (data : DataM) (internal : SplitOracle) (honesty : Bool)
    (subsample : List Nat → List Nat × List Nat) (samples : List Nat)
    (fuel : Nat) : Tree :=
  let b := train_core data internal honesty subsample samples fuel
  ⟨b.childLeft, b.childRight, b.nodes, b.split_vars, b.split_values, [], ⟨[], 0, 0⟩⟩

/-- TreeTrainer::train: build the tree, repopulate leaves from the held-out
half only when that half is non-empty, then attach the prediction values
computed by the strategy (when one is configured). -/
def train (data : DataM) (internal : SplitOracle)
    (precompute : Option (List (List Nat) → Observations → PredictionValues))
    (obs : Observations) (honesty : Bool)
    (subsample : List Nat → List Nat × List Nat) (samples : List Nat)
    (fuel : Nat) : Tree :=
  let new_leaf_samples := if honesty then (subsample samples).2 else []
  let tree0 := built_tree data internal honesty subsample samples fuel
  let tree1 := if new_leaf_samples.isEmpty then tree0
    else repopulate_leaf_nodes data tree0 new_leaf_samples
  let pv := match precompute with
    | none => (⟨[], 0, 0⟩ : PredictionValues)
    | some f => f tree1.leaf_samples obs
  { tree1 with prediction_values := pv }

/-! Concrete fixtures used by the test-vector claims and the witnesses. -/

/-- A 1-by-1 summary matrix holding 1. -/
def matOne : Mat := ⟨1, 1, [[F.val 1]]⟩

/-- A 1-by-1 summary matrix holding -1. -/
def matNegOne : Mat := ⟨1, 1, [[F.val (-1)]]⟩

/-- Two complete CI groups of leaf summaries: [[1],[1]] and [[-1],[-1]]. -/
def leafValuesTwoGroups : PredictionValues :=
  ⟨[[matOne], [matOne], [matNegOne], [matNegOne]], 4, 1⟩

/-- The averaged values with average outcome 0. -/
def averageZero : List Mat := [⟨1, 1, [[F.val 0]]⟩]

/-- The ten outcomes of the regression size-10 scenario, as a 10-by-1
OUTCOME matrix. -/
def obsTen : Observations :=
  ⟨[⟨10, 1, [[F.val (-9.99984)], [F.val (-7.36924)], [F.val 5.11211],
    [F.val (-0.826997)], [F.val 0.655345], [F.val (-5.62082)],
    [F.val (-9.05911)], [F.val 3.57729], [F.val 3.58593], [F.val 8.69386]]⟩]⟩

/-- A single leaf containing all ten samples. -/
def leafAllTen : List (List Nat) := [[0, 1, 2, 3, 4, 5, 6, 7, 8, 9]]

/-- Witness data matrix for the split-ordering claim: sample 0 has feature
value 0, every other sample has feature value 5. -/
def dataSplitW : DataM := fun s _ => if s = 0 then F.val 0 else F.val 5

/-- Counterexample data matrix: sample 0 has feature value 0, every other
sample has a NaN feature value. -/
def dataNanW : DataM := fun s _ => if s = 0 then F.val 0 else F.nan

/-- Witness build state: a single root node holding samples 0 and 1. -/
def stSplitW : BuildTree := ⟨[0], [0], [[0, 1]], [0], [0]⟩

/-- Witness split decision: split the root at variable 0, threshold 3. -/
def internalSplitW : SplitOracle :=
  fun n _ vars vals => (false, vars.set n 0, vals.set n 3)

/-- Witness strategy for the empty-prediction claim: prediction length 2. -/
def stratEmptyW : Strategy := ⟨2, 1, fun _ => [], fun _ _ _ => []⟩

/-- Witness forest for the empty-prediction claim: one tree whose root leaf
carries a summary. -/
def pvsOneTree : List PredictionValues := [⟨[[matOne]], 1, 1⟩]

/-- Witness strategy for the prediction-shape claim: prediction length 1,
constant point prediction. -/
def stratShapeW : Strategy := ⟨1, 1, fun _ => [F.val 0], fun _ _ _ => []⟩

/-- Witness observations for the pure-node claim: both outcomes are 7. -/
def obsSeven : Observations := ⟨[⟨2, 1, [[F.val 7], [F.val 7]]⟩]⟩

/-- A relabeling oracle returning the empty response map. -/
def relabelNoneW : RelabelOracle := fun _ _ => []

/-- A splitting-rule oracle that never stops and never writes. -/
def findNeverStopW : FindBestSplitOracle := fun _ _ _ _ sv vals => (false, sv, vals)

/-- Witness uniform without-replacement draw: the first k eligible
variables in increasing order. -/
def drawSkipW : Nat → List Nat → Nat → List Nat :=
  fun num_cols skip k => (((List.range num_cols).filter (fun v => !(skip.contains v))).take k)

/-- Witness weighted draw (never reached by the witness). -/
def drawWeightedW : List Nat → Nat → List ℚ → List Nat := fun _ _ _ => []

/-- Witness split decision that immediately marks every node terminal. -/
def internalStopW : SplitOracle := fun n _ vars vals => (true, vars, vals.set n (-1))

/-- Witness honesty subsample: first element against the rest. -/
def subsampleHalveW : List Nat → List Nat × List Nat := fun l => (l.take 1, l.drop 1)

/-- Witness honesty subsample whose held-out half is empty. -/
def subsampleAllW : List Nat → List Nat × List Nat := fun l => (l, [])

/-- The state produced by the witness split: the root's samples partitioned
into children 1 and 2 at threshold 3. -/
def stSplitPostW : BuildTree :=
  ⟨[1, 0, 0], [2, 0, 0], [[0, 1], [0], [1]], [0, 0, 0], [3, 0, 0]⟩

/-! Helper lemmas shared by the claim theorems. -/

lemma getD_append_singleton {α : Type} (l : List α) (d : α) (n : Nat) :
    (l ++ [d]).getD n d = l.getD n d := by
  induction l generalizing n with
  | nil => cases n <;> simp [List.getD]
  | cons a t ih =>
    cases n with
    | zero => rfl
    | succ m => rw [List.cons_append, List.getD_cons_succ, List.getD_cons_succ, ih]

lemma getD_set_self {α : Type} (l : List α) (n : Nat) (a d : α) (h : n < l.length) :
    (l.set n a).getD n d = a := by
  induction l generalizing n with
  | nil => simp at h
  | cons x t ih =>
    cases n with
    | zero => simp
    | succ m => simp only [List.set_cons_succ, List.getD_cons_succ]; exact ih m (by simpa using h)

lemma getD_set_ne {α : Type} (l : List α) (m n : Nat) (a d : α) (h : m ≠ n) :
    (l.set m a).getD n d = l.getD n d := by
  induction l generalizing m n with
  | nil => simp
  | cons x t ih =>
    cases m with
    | zero => cases n with
      | zero => exact absurd rfl h
      | succ k => simp
    | succ j => cases n with
      | zero => simp
      | succ k => simp only [List.set_cons_succ, List.getD_cons_succ]; exact ih j k (by omega)

lemma partition_samples_aux (data : DataM) (v : Nat) (c : ℚ) :
    ∀ (l : List Nat) (a b : List Nat),
      l.foldl (fun acc s =>
        if F.le (data s v) (F.val c) then (acc.1 ++ [s], acc.2)
        else (acc.1, acc.2 ++ [s])) (a, b)
      = (a ++ l.filter (fun s => F.le (data s v) (F.val c)),
         b ++ l.filter (fun s => !F.le (data s v) (F.val c))) := by
  intro l
  induction l with
  | nil => intro a b; simp
  | cons s t ih =>
    intro a b
    cases hs : F.le (data s v) (F.val c) with
    | true =>
      simp only [List.foldl_cons, hs, if_true, List.filter_cons, Bool.not_true, if_false]
      rw [ih]
      simp
    | false =>
      simp only [List.foldl_cons, hs, if_false, List.filter_cons, Bool.not_false, if_true]
      rw [ih]
      simp

lemma partition_samples_eq (data : DataM) (v : Nat) (c : ℚ) (l : List Nat) :
    partition_samples data v c l
      = (l.filter (fun s => F.le (data s v) (F.val c)),
         l.filter (fun s => !F.le (data s v) (F.val c))) := by
  unfold partition_samples
  rw [partition_samples_aux]
  simp

lemma foldlM_option_skip {β : Type} (step : β → Nat → Option β) (l : List Nat) (b : β)
    (h : ∀ a ∈ l, step b a = some b) : l.foldlM step b = some b := by
  induction l with
  | nil => rfl
  | cons a t ih =>
    have h1 : step b a = some b := h a (by simp)
    rw [List.foldlM_cons, h1]
    exact ih (fun x hx => h x (by simp [hx]))

lemma mapExcept_ok_mem {α β : Type} (f : α → Except CollectError β) :
    ∀ (l : List α) (ys : List β), mapExcept f l = Except.ok ys →
      ∀ y ∈ ys, ∃ x, f x = Except.ok y := by
  intro l
  induction l with
  | nil =>
    intro ys h y hy
    simp only [mapExcept] at h
    cases h
    simp at hy
  | cons a t ih =>
    intro ys h y hy
    simp only [mapExcept] at h
    cases hfa : f a with
    | error e => rw [hfa] at h; cases h
    | ok b =>
      rw [hfa] at h
      cases hmt : mapExcept f t with
      | error e => rw [hmt] at h; cases h
      | ok bs =>
        rw [hmt] at h
        cases h
        rcases List.mem_cons.mp hy with rfl | hmem
        · exact ⟨a, hfa⟩
        · exact ih bs hmt y hmem

lemma consecutive_equal_of_const (q : ℚ) :
    ∀ l : List F, (∀ x ∈ l, x = F.val q) → consecutive_equal l = true := by
  intro l
  induction l with
  | nil => intro _; rfl
  | cons a t ih =>
    intro h
    cases t with
    | nil => rfl
    | cons b t2 =>
      have ha : a = F.val q := h a (by simp)
      have hb : b = F.val q := h b (by simp)
      subst ha
      subst hb
      have hrest : consecutive_equal (F.val q :: t2) = true :=
        ih (fun x hx => h x (List.mem_cons_of_mem _ hx))
      simp [consecutive_equal, F.beq, hrest]

lemma collect_tree_step_skip (pvs : List PredictionValues) (lnt : List (List Nat))
    (mask : List (List Bool)) (g sample : Nat) (acc : Nat × List Mat × List (List Mat)) (t : Nat)
    (h : (mask ≠ [] ∧ (mask.getD sample []).getD t false = false)
      ∨ (pvs.getD t ⟨[], 0, 0⟩).empty ((lnt.getD t []).getD sample 0) = true) :
    collect_tree_step pvs lnt mask g sample acc t = some acc := by
  unfold collect_tree_step
  rcases h with ⟨hm, hex⟩ | hemp
  · have hme : mask.isEmpty = false := by
      cases mask with
      | nil => exact absurd rfl hm
      | cons a b => rfl
    rw [if_pos (show (!mask.isEmpty && !((mask.getD sample []).getD t false)) = true by
      rw [hme, hex]; rfl)]
  · by_cases hc : (!mask.isEmpty && !((mask.getD sample []).getD t false)) = true
    · rw [if_pos hc]
    · rw [if_neg hc, if_pos hemp]

lemma collect_sample_ok_length (strategy : Strategy) (pvs : List PredictionValues)
    (lnt : List (List Nat)) (mask : List (List Bool)) (g sample : Nat) (p : Prediction)
    (h : collect_prediction_for_sample strategy pvs lnt mask g sample = Except.ok p) :
    p.point.length = strategy.prediction_length := by
  simp only [collect_prediction_for_sample] at h
  cases hfold : (List.range pvs.length).foldlM
      (collect_tree_step pvs lnt mask g sample)
      ((0 : Nat), ([] : List Mat),
        if 1 < g then List.replicate pvs.length ([] : List Mat) else []) with
  | none => rw [hfold] at h; cases h
  | some acc =>
    rw [hfold] at h
    by_cases hz : acc.1 = 0
    · simp only [hz, if_true, if_pos] at h
      cases h
      simp
    · simp only [hz, if_neg, if_false] at h
      simp only [validate_prediction] at h
      by_cases hlen : (strategy.predict (normalize_prediction_values acc.1 acc.2.1)).length
          ≠ strategy.prediction_length
      · simp [hlen] at h
      · simp only [hlen, if_neg, if_false] at h
        cases h
        simpa using hlen

/-! The claim theorems. -/

/-- Claim C1, amended for NaN routing: TreeTrainer::split_node partitions
the node's sample list so that the left child receives exactly the samples
with data[s, split_var] <= split_value under the IEEE comparison and the
right child all others, i.e. every left sample satisfies <=, every right
sample fails <= (a NaN feature value goes right), and every right sample
whose feature value is a real number satisfies data > split_value. -/
theorem C1_split_ordering (data : DataM) (internal : SplitOracle) (node : Nat)
    (st st' : BuildTree)
    (hn : node < st.nodes.length)
    (hl : st.childLeft.length = st.nodes.length)
    (hr : st.childRight.length = st.nodes.length)
    (h : split_node data internal node st = (false, st')) :
    (st'.nodes.getD (st'.childLeft.getD node 0) []
        = (st.nodes.getD node []).filter
            (fun s => F.le (data s (st'.split_vars.getD node 0))
              (F.val (st'.split_values.getD node 0))))
  ∧ (st'.nodes.getD (st'.childRight.getD node 0) []
        = (st.nodes.getD node []).filter
            (fun s => !F.le (data s (st'.split_vars.getD node 0))
              (F.val (st'.split_values.getD node 0))))
  ∧ (∀ s ∈ st'.nodes.getD (st'.childLeft.getD node 0) [],
        F.le (data s (st'.split_vars.getD node 0))
          (F.val (st'.split_values.getD node 0)) = true)
  ∧ (∀ s ∈ st'.nodes.getD (st'.childRight.getD node 0) [],
        F.le (data s (st'.split_vars.getD node 0))
          (F.val (st'.split_values.getD node 0)) = false)
  ∧ (∀ s ∈ st'.nodes.getD (st'.childRight.getD node 0) [],
        ∀ q : ℚ, data s (st'.split_vars.getD node 0) = F.val q →
          st'.split_values.getD node 0 < q) := by
  unfold split_node at h
  rcases hri : internal node st.nodes st.split_vars st.split_values with ⟨stop, vars, vals⟩
  rw [hri] at h
  cases stop with
  | true => simp at h
  | false =>
    simp only [Bool.false_eq_true, if_false] at h
    injection h with h1 h2
    subst h2
    simp only [create_empty_node]
    simp only [List.length_append, List.length_cons, List.length_nil]
    simp only [getD_append_singleton]
    simp only [partition_samples_eq]
    have hclv : (st.childLeft.set node st.nodes.length).getD node 0 = st.nodes.length :=
      getD_set_self _ _ _ _ (by omega)
    have hcrv : ((st.childRight ++ [0]).set node (st.nodes.length + (0 + 1))).getD node 0
        = st.nodes.length + (0 + 1) :=
      getD_set_self _ _ _ _
        (by simp only [List.length_append, List.length_cons, List.length_nil]; omega)
    rw [hclv, hcrv]
    set p1 := List.filter (fun s => F.le (data s (vars.getD node 0)) (F.val (vals.getD node 0)))
      (st.nodes.getD node []) with hp1
    set p2 := List.filter (fun s => !F.le (data s (vars.getD node 0)) (F.val (vals.getD node 0)))
      (st.nodes.getD node []) with hp2
    have hlenA : (st.nodes ++ [[]] ++ [[]] : List (List Nat)).length = st.nodes.length + 1 + 1 := by
      simp
    have h6 : (((st.nodes ++ [[]] ++ [[]]).set st.nodes.length p1).set
        (st.nodes.length + (0 + 1)) p2).getD st.nodes.length [] = p1 := by
      rw [getD_set_ne _ _ _ _ _ (by omega), getD_set_self _ _ _ _ (by omega)]
    have h7 : (((st.nodes ++ [[]] ++ [[]]).set st.nodes.length p1).set
        (st.nodes.length + (0 + 1)) p2).getD (st.nodes.length + (0 + 1)) [] = p2 := by
      rw [getD_set_self _ _ _ _ (by rw [List.length_set]; omega)]
    rw [h6, h7]
    refine ⟨rfl, rfl, ?_, ?_, ?_⟩
    · intro s hs
      have hm := (List.mem_filter.mp (hp1 ▸ hs)).2
      exact hm
    · intro s hs
      have hm := (List.mem_filter.mp (hp2 ▸ hs)).2
      simpa using hm
    · intro s hs q hq
      have hm := (List.mem_filter.mp (hp2 ▸ hs)).2
      have hfalse : F.le (data s (vars.getD node 0)) (F.val (vals.getD node 0)) = false := by
        simpa using hm
      rw [hq] at hfalse
      have hdec : decide (q ≤ vals.getD node 0) = false := hfalse
      exact lt_of_not_le (of_decide_eq_false hdec)

/-- Counterexample for C1 as originally stated: with a NaN feature value
for sample 1, split_node places sample 1 in the right child although
data[1, split_var] > split_value is false (IEEE), so not every right-child
sample satisfies the strict comparison. -/
theorem C1_split_ordering_counterexample :
    split_node dataNanW internalSplitW 0 stSplitW = (false, stSplitPostW)
    ∧ 1 ∈ stSplitPostW.nodes.getD (stSplitPostW.childRight.getD 0 0) []
    ∧ ¬ (∀ s ∈ stSplitPostW.nodes.getD (stSplitPostW.childRight.getD 0 0) [],
          F.lt (F.val (stSplitPostW.split_values.getD 0 0))
            (dataNanW s (stSplitPostW.split_vars.getD 0 0)) = true) := by
  refine ⟨by rfl, by decide, ?_⟩
  intro hall
  have h1 := hall 1 (by decide)
  simp [dataNanW, stSplitPostW, F.lt] at h1

/-- Witness for C1 (amended): a concrete two-sample node split at
threshold 3 with every hypothesis discharged by evaluation. -/
theorem C1_split_ordering_witness :
    (0 < stSplitW.nodes.length
      ∧ stSplitW.childLeft.length = stSplitW.nodes.length
      ∧ stSplitW.childRight.length = stSplitW.nodes.length
      ∧ split_node dataSplitW internalSplitW 0 stSplitW = (false, stSplitPostW))
    ∧ ((stSplitPostW.nodes.getD (stSplitPostW.childLeft.getD 0 0) []
          = (stSplitW.nodes.getD 0 []).filter
              (fun s => F.le (dataSplitW s (stSplitPostW.split_vars.getD 0 0))
                (F.val (stSplitPostW.split_values.getD 0 0))))
      ∧ (stSplitPostW.nodes.getD (stSplitPostW.childRight.getD 0 0) []
          = (stSplitW.nodes.getD 0 []).filter
              (fun s => !F.le (dataSplitW s (stSplitPostW.split_vars.getD 0 0))
                (F.val (stSplitPostW.split_values.getD 0 0))))
      ∧ (∀ s ∈ stSplitPostW.nodes.getD (stSplitPostW.childLeft.getD 0 0) [],
            F.le (dataSplitW s (stSplitPostW.split_vars.getD 0 0))
              (F.val (stSplitPostW.split_values.getD 0 0)) = true)
      ∧ (∀ s ∈ stSplitPostW.nodes.getD (stSplitPostW.childRight.getD 0 0) [],
            F.le (dataSplitW s (stSplitPostW.split_vars.getD 0 0))
              (F.val (stSplitPostW.split_values.getD 0 0)) = false)
      ∧ (∀ s ∈ stSplitPostW.nodes.getD (stSplitPostW.childRight.getD 0 0) [],
            ∀ q : ℚ, dataSplitW s (stSplitPostW.split_vars.getD 0 0) = F.val q →
              stSplitPostW.split_values.getD 0 0 < q)) :=
  ⟨⟨by decide, rfl, rfl, by rfl⟩,
   C1_split_ordering dataSplitW internalSplitW 0 stSplitW stSplitPostW (by decide) rfl rfl (by rfl)⟩

/-- Claim C2: for ci_group_size = 2 and leaf summary groups [[1],[1]] and
[[-1],[-1]] with average outcome 0, compute_variance's intermediates are
num_good_groups = 2, psi_squared = 4, psi_grouped_squared = 2,
var_between = 1, var_total = 1, group_noise = 0, and the returned vector is
the debiaser applied to (var_between, group_noise, num_good_groups). -/
theorem C2_group_variance :
    variance_moments averageZero leafValuesTwoGroups 2
      = (F.val 2, F.val 4, F.val 2, F.val 1, F.val 1, F.val 0)
    ∧ ∀ debias : F → F → F → F,
        regression_compute_variance debias averageZero leafValuesTwoGroups 2
          = [debias (F.val 1) (F.val 0) (F.val 2)] := by
  have h : variance_moments averageZero leafValuesTwoGroups 2
      = (F.val 2, F.val 4, F.val 2, F.val 1, F.val 1, F.val 0) := by
    simp [variance_moments, leafValuesTwoGroups, averageZero, matOne, matNegOne,
      PredictionValues.empty, PredictionValues.get, Mat.entry, Mat.zero,
      F.sub, F.add, F.mul, F.div, List.range, List.range.loop, RegressionOUTCOME]
    norm_num
  exact ⟨h, fun debias => by simp [regression_compute_variance, h]⟩

/-- Claim C3: on the ten-outcome single-leaf input the source's
precompute_prediction_values does not produce a 1-by-1 mean matrix; it
accumulates the 1-by-1 outcome vectors into a 1-by-4 accumulator, which
fails Eigen's shape assertion on the first sample (the embedding returns
none, modelling the aborted program). -/
theorem C3_regression_precompute_aborts :
    regression_precompute_prediction_values leafAllTen obsTen = none := by rfl

/-- Claim C4: RegressionPredictionStrategy::compute_variance always returns
a vector of length 1, while the source's prediction_length() returns 4, so
the returned length does not equal prediction_length(). -/
theorem C4_variance_length_mismatch :
    (∀ (debias : F → F → F → F) (average : List Mat) (leaf_values : PredictionValues)
        (ci_group_size : Nat),
      (regression_compute_variance debias average leaf_values ci_group_size).length = 1)
    ∧ regression_prediction_length = 4
    ∧ (1 : Nat) ≠ regression_prediction_length :=
  ⟨fun _ _ _ _ => rfl, rfl, by decide⟩

/-- Claim C5: a query row for which no tree contributes a non-empty leaf
(each tree is excluded by the mask or routed to an empty leaf) yields, with
no error, a point prediction of length prediction_length() filled with NaN
and no variance vector. -/
theorem C5_empty_prediction (strategy : Strategy) (pvs_by_tree : List PredictionValues)
    (leaf_nodes_by_tree : List (List Nat)) (trees_by_sample : List (List Bool))
    (ci_group_size : Nat) (sample : Nat)
    (h : ∀ t < pvs_by_tree.length,
      (trees_by_sample ≠ [] ∧ (trees_by_sample.getD sample []).getD t false = false)
      ∨ (pvs_by_tree.getD t ⟨[], 0, 0⟩).empty
          ((leaf_nodes_by_tree.getD t []).getD sample 0) = true) :
    collect_prediction_for_sample strategy pvs_by_tree leaf_nodes_by_tree trees_by_sample
      ci_group_size sample
      = Except.ok ⟨List.replicate strategy.prediction_length F.nan, none⟩ := by
  have hfold : (List.range pvs_by_tree.length).foldlM
      (collect_tree_step pvs_by_tree leaf_nodes_by_tree trees_by_sample ci_group_size sample)
      ((0 : Nat), ([] : List Mat),
        if 1 < ci_group_size then List.replicate pvs_by_tree.length ([] : List Mat) else [])
      = some (0, [],
        if 1 < ci_group_size then List.replicate pvs_by_tree.length ([] : List Mat) else []) :=
    foldlM_option_skip _ _ _
      (fun t ht => collect_tree_step_skip _ _ _ _ _ _ _ (h t (List.mem_range.mp ht)))
  simp only [collect_prediction_for_sample]
  rw [hfold]
  rfl

/-- Witness for C5: one tree, excluded by the mask for query row 0. -/
theorem C5_empty_prediction_witness :
    (∀ t < pvsOneTree.length,
      (([[false]] : List (List Bool)) ≠ []
        ∧ (([[false]] : List (List Bool)).getD 0 []).getD t false = false)
      ∨ (pvsOneTree.getD t ⟨[], 0, 0⟩).empty ((([[0]] : List (List Nat)).getD t []).getD 0 0) = true)
    ∧ collect_prediction_for_sample stratEmptyW pvsOneTree [[0]] [[false]] 2 0
        = Except.ok ⟨List.replicate stratEmptyW.prediction_length F.nan, none⟩ :=
  ⟨by decide, C5_empty_prediction stratEmptyW pvsOneTree [[0]] [[false]] 2 0 (by decide)⟩

/-- Claim C6: a node whose outcome scalars are all equal is marked terminal
by split_node_internal with split_values[node] = -1, with the relabeling
strategy and the splitting rule never consulted (the result is this fixed
value for every relabeling oracle and every splitting-rule oracle). -/
theorem C6_pure_node (min_node_size : Nat) (relabel : RelabelOracle)
    (find_best_split : FindBestSplitOracle) (obs : Observations) (node : Nat)
    (possible_split_vars : List Nat) (samples : List (List Nat))
    (split_vars : List Nat) (split_values : List ℚ) (q : ℚ)
    (hpure : ∀ s ∈ samples.getD node [], outcome0 obs s = F.val q) :
    split_node_internal min_node_size relabel find_best_split obs node possible_split_vars
      samples split_vars split_values
      = (true, split_vars, split_values.set node (-1)) := by
  unfold split_node_internal
  by_cases hsz : (samples.getD node []).length ≤ min_node_size
  · rw [if_pos hsz]
  · rw [if_neg hsz, if_pos (consecutive_equal_of_const q _
      (fun x hx => by
        obtain ⟨s, hs, rfl⟩ := List.mem_map.mp hx
        exact hpure s hs))]

/-- Witness for C6: two samples with outcome 7, min_node_size 0 (so the
pure-node branch and not the size branch fires), and a splitting-rule
oracle that would keep splitting if it were consulted. -/
theorem C6_pure_node_witness :
    (∀ s ∈ ([[0, 1]] : List (List Nat)).getD 0 [], outcome0 obsSeven s = F.val 7)
    ∧ split_node_internal 0 relabelNoneW findNeverStopW obsSeven 0 [] [[0, 1]] [0] [5]
        = (true, [0], ([5] : List ℚ).set 0 (-1)) :=
  ⟨by decide,
    C6_pure_node 0 relabelNoneW findNeverStopW obsSeven 0 [] [[0, 1]] [0] [5] 7 (by decide)⟩

/-- Claim C7: a node with at most min_node_size samples is marked terminal
by split_node_internal with split_values[node] = -1. -/
theorem C7_min_node_size (min_node_size : Nat) (relabel : RelabelOracle)
    (find_best_split : FindBestSplitOracle) (obs : Observations) (node : Nat)
    (possible_split_vars : List Nat) (samples : List (List Nat))
    (split_vars : List Nat) (split_values : List ℚ)
    (hsz : (samples.getD node []).length ≤ min_node_size) :
    split_node_internal min_node_size relabel find_best_split obs node possible_split_vars
      samples split_vars split_values
      = (true, split_vars, split_values.set node (-1)) := by
  unfold split_node_internal
  rw [if_pos hsz]

/-- Witness for C7: a node of exactly 5 samples with min_node_size = 5. -/
theorem C7_min_node_size_witness :
    (([[0, 1, 2, 3, 4]] : List (List Nat)).getD 0 []).length ≤ 5
    ∧ split_node_internal 5 relabelNoneW findNeverStopW obsSeven 0 [] [[0, 1, 2, 3, 4]] [0] [5]
        = (true, [0], ([5] : List ℚ).set 0 (-1)) :=
  ⟨by decide,
    C7_min_node_size 5 relabelNoneW findNeverStopW obsSeven 0 [] [[0, 1, 2, 3, 4]] [0] [5]
      (by decide)⟩

/-- Claim C8: with no deterministic variables, no per-variable weights, and
num_independent_variables = num_cols - |no_split_variables| = 1, the
candidate variable subset has size exactly 1 whatever the Poisson draw
mtry_sample is, because split_mtry = max(min(mtry_sample, 1), 1) = 1. -/
theorem C8_poisson_mtry_clamp (no_split_vars : List Nat) (num_cols : Nat)
    (split_select_vars : List Nat) (mtry_sample : Nat)
    (draw_skip : Nat → List Nat → Nat → List Nat)
    (draw_weighted : List Nat → Nat → List ℚ → List Nat)
    (hind : num_cols - no_split_vars.length = 1)
    (hdraw : ∀ k, k ≤ num_cols - no_split_vars.length →
      (draw_skip num_cols no_split_vars k).length = k) :
    (create_split_variable_subset [] no_split_vars num_cols [] split_select_vars
      mtry_sample draw_skip draw_weighted).length = 1 := by
  have hmtry : max (min mtry_sample (num_cols - no_split_vars.length)) 1 = 1 := by omega
  simp only [create_split_variable_subset, List.isEmpty_nil, if_true, List.nil_append, hmtry]
  exact hdraw 1 (by omega)

/-- Witness for C8: one column, no no-split variables, Poisson draw 7, with
the take-first-k draw oracle. -/
theorem C8_poisson_mtry_clamp_witness :
    ((1 : Nat) - ([] : List Nat).length = 1
      ∧ ∀ k, k ≤ (1 : Nat) - ([] : List Nat).length → (drawSkipW 1 [] k).length = k)
    ∧ (create_split_variable_subset [] [] 1 [] [] 7 drawSkipW drawWeightedW).length = 1 :=
  have hdraw : ∀ k, k ≤ (1 : Nat) - ([] : List Nat).length → (drawSkipW 1 [] k).length = k := by
    intro k hk
    have hk1 : k ≤ 1 := by simpa using hk
    interval_cases k
    · rfl
    · rfl
  ⟨⟨rfl, hdraw⟩, C8_poisson_mtry_clamp [] 1 [] 7 drawSkipW drawWeightedW rfl hdraw⟩

/-- Claim C10: TreeTrainer::train repopulates and prunes leaves precisely
when the held-out half of the honesty subsample is non-empty: with honesty
off, or with an empty held-out half, the returned tree's leaves are exactly
the split-selection sample lists produced by the partitioning loop; with a
non-empty held-out half the leaves are those of repopulate_leaf_nodes. -/
theorem C10_honesty_guard (data : DataM) (internal : SplitOracle)
    (precompute : Option (List (List Nat) → Observations → PredictionValues))
    (obs : Observations) (subsample : List Nat → List Nat × List Nat)
    (samples : List Nat) (fuel : Nat) :
    ((train data internal precompute obs false subsample samples fuel).leaf_samples
        = (train_core data internal false subsample samples fuel).nodes)
    ∧ ((subsample samples).2 = [] →
        (train data internal precompute obs true subsample samples fuel).leaf_samples
          = (train_core data internal true subsample samples fuel).nodes)
    ∧ ((subsample samples).2 ≠ [] →
        (train data internal precompute obs true subsample samples fuel).leaf_samples
          = (repopulate_leaf_nodes data
              (built_tree data internal true subsample samples fuel)
              ((subsample samples).2)).leaf_samples) := by
  refine ⟨rfl, ?_, ?_⟩
  · intro h2
    simp [train, h2, built_tree]
  · intro h3
    have hne : ((subsample samples).2).isEmpty = false := by
      cases hsub : (subsample samples).2 with
      | nil => exact absurd hsub h3
      | cons a b => rfl
    simp [train, hne]

/-- Witness for C10: both honesty cases at concrete inputs, one with a
non-empty held-out half and one with an empty held-out half. -/
theorem C10_honesty_guard_witness :
    ((subsampleHalveW [0, 1]).2 ≠ []
      ∧ (train dataSplitW internalStopW none obsSeven true subsampleHalveW [0, 1] 3).leaf_samples
          = (repopulate_leaf_nodes dataSplitW
              (built_tree dataSplitW internalStopW true subsampleHalveW [0, 1] 3)
              ((subsampleHalveW [0, 1]).2)).leaf_samples)
    ∧ ((subsampleAllW [0, 1]).2 = []
      ∧ (train dataSplitW internalStopW none obsSeven true subsampleAllW [0, 1] 3).leaf_samples
          = (train_core dataSplitW internalStopW true subsampleAllW [0, 1] 3).nodes) :=
  ⟨⟨by decide,
    (C10_honesty_guard dataSplitW internalStopW none obsSeven subsampleHalveW [0, 1] 3).2.2
      (by decide)⟩,
   ⟨rfl,
    (C10_honesty_guard dataSplitW internalStopW none obsSeven subsampleAllW [0, 1] 3).2.1 rfl⟩⟩

/-- Claim C9: validate_prediction raises the fatal programmer error exactly
when the point vector's length differs from prediction_length(), and every
Prediction in a successfully collected batch (NaN placeholders included)
has point length prediction_length(). -/
theorem C9_validate_shape (strategy : Strategy) (pvs : List PredictionValues)
    (num_samples : Nat) (lnt : List (List Nat)) (mask : List (List Bool)) (g : Nat)
    (ps : List Prediction)
    (h : collect_predictions strategy pvs num_samples lnt mask g = Except.ok ps) :
    (∀ (sample : Nat) (p : Prediction),
        validate_prediction strategy sample p = Except.error (CollectError.badLength sample)
          ↔ p.point.length ≠ strategy.prediction_length)
    ∧ ∀ p ∈ ps, p.point.length = strategy.prediction_length := by
  constructor
  · intro sample p
    constructor
    · intro he
      by_contra hc
      simp [validate_prediction, hc] at he
    · intro hne
      simp [validate_prediction, hne]
  · intro p hp
    obtain ⟨x, hx⟩ := mapExcept_ok_mem _ _ _ h p hp
    exact collect_sample_ok_length _ _ _ _ _ _ _ hx

/-- Witness for C9: a one-tree, one-row collection that succeeds, with the
validation iff and the shape property instantiated on its output. -/
theorem C9_validate_shape_witness :
    collect_predictions stratShapeW pvsOneTree 1 [[0]] [] 1
        = Except.ok [⟨[F.val 0], none⟩]
    ∧ (∀ (sample : Nat) (p : Prediction),
        validate_prediction stratShapeW sample p = Except.error (CollectError.badLength sample)
          ↔ p.point.length ≠ stratShapeW.prediction_length)
    ∧ ∀ p ∈ [(⟨[F.val 0], none⟩ : Prediction)], p.point.length = stratShapeW.prediction_length :=
  have h : collect_predictions stratShapeW pvsOneTree 1 [[0]] [] 1
      = Except.ok [⟨[F.val 0], none⟩] := by rfl
  ⟨h, (C9_validate_shape stratShapeW pvsOneTree 1 [[0]] [] 1 [⟨[F.val 0], none⟩] h).1,
    (C9_validate_shape stratShapeW pvsOneTree 1 [[0]] [] 1 [⟨[F.val 0], none⟩] h).2⟩

end Mgrf
